import Mathlib

/-!
Verification of the lip-sync performance engine (src/app/layout.tsx, hook
useLipSyncEngine and the component around it).

Numbers are modelled as exact rationals.  The transcendental library
functions the source calls (Math.sin, Math.exp, Math.sqrt) are abstracted
as a parameter structure MathPrims; theorems that need a property of them
(such as the sine bound) take it as a hypothesis.  All other arithmetic is
translated literally from the source.
-/

namespace LipSync

/-- Clamp of the source: Math.min(Math.max(value, min), max). -/
def clamp (value mn mx : ℚ) : ℚ :=
  min (max value mn) mx

/-- Emotion profile fields the engine reads (from lib/emotions usage sites). -/
structure EmotionPreset where
  mouthEnergy : ℚ
  handAmplitude : ℚ
  gazeIntensity : ℚ
  browLift : ℚ
  deriving DecidableEq

/-- Abstraction of the JavaScript math library functions used by the engine. -/
structure MathPrims where
  sin : ℚ → ℚ
  exp : ℚ → ℚ
  sqrt : ℚ → ℚ

/-- One step of the seeded generator from createSeeder:
value = Math.sin(value + 0.12345) * 43758.5453; return value - Math.floor(value).
The first component is the returned sample, the second the new state. -/
def seederNext (P : MathPrims) (v : ℚ) : ℚ × ℚ :=
  let v2 := P.sin (v + 0.12345) * 43758.5453
  (v2 - ⌊v2⌋, v2)

/-- Initial generator state of createSeeder: seed * 10_000. -/
def seederInit (seed : ℚ) : ℚ :=
  seed * 10000

/-- Timestamped mouth target, the VisemeFrame record of the source. -/
structure VisemeFrame where
  time : ℚ
  mouth : ℚ
  width : ℚ
  deriving DecidableEq

/-- Whitespace collapse implementing text.replace with the whitespace-run
pattern replaced by a single space: every maximal run of whitespace becomes
one space character.  The boolean argument records whether the previous
character was inside a whitespace run. -/
def collapseWsAux : Bool → List Char → List Char
  | _, [] => []
  | prevWs, c :: rest =>
    if c.isWhitespace then
      if prevWs then collapseWsAux true rest
      else ' ' :: collapseWsAux true rest
    else c :: collapseWsAux false rest

/-- Whitespace-run collapse starting outside a run. -/
def collapseWs (l : List Char) : List Char :=
  collapseWsAux false l

/-- JavaScript String.prototype.trim: drop whitespace from both ends. -/
def trimJS (l : List Char) : List Char :=
  ((l.dropWhile Char.isWhitespace).reverse.dropWhile Char.isWhitespace).reverse

/-- getWords of the source: collapse whitespace runs to single spaces, trim,
split on the space character and drop empty fragments. -/
def getWords (text : List Char) : List (List Char) :=
  (((collapseWs text).dropWhile Char.isWhitespace).reverse.dropWhile
      Char.isWhitespace).reverse.splitOn ' ' |>.filter (· ≠ [])

/-- estimateWordDuration of the source. -/
def estimateWordDuration (emotion : EmotionPreset) : ℚ :=
  let base : ℚ := 0.42
  let energyOffset := (emotion.mouthEnergy - 0.5) * 0.2
  let handOffset := emotion.handAmplitude * 0.05
  clamp (base - energyOffset - handOffset) 0.28 0.6

/-- Vowel test for the regex character class [aeiouy] with the i flag. -/
def isVowelChar (c : Char) : Bool :=
  c.toLower = 'a' || c.toLower = 'e' || c.toLower = 'i' || c.toLower = 'o' ||
    c.toLower = 'u' || c.toLower = 'y'

/-- Consonant test for the regex character class [pbmfvl] with the i flag. -/
def isStrongConsonant (c : Char) : Bool :=
  c.toLower = 'p' || c.toLower = 'b' || c.toLower = 'm' || c.toLower = 'f' ||
    c.toLower = 'v' || c.toLower = 'l'

/-- Vowel weight of a word: matched-vowel count (with the JavaScript
null-match fallback of 1 when there is no vowel) divided by word length. -/
def vowelWeight (w : List Char) : ℚ :=
  let n := (w.filter isVowelChar).length
  ((if n = 0 then 1 else n : ℕ) : ℚ) / (w.length : ℚ)

/-- Consonant strength of a word: matched count times 0.15 (null match
falls back to 0). -/
def consonantStrength (w : List Char) : ℚ :=
  ((w.filter isStrongConsonant).length : ℚ) * 0.15

/-- Per-word peak construction of buildVisemeTimeline (the words.map body),
threading the seeded generator state in source evaluation order: the noise
sample is drawn first, then the time-jitter sample. -/
def mkPeaks (P : MathPrims) (emotion : EmotionPreset) (wordDuration duration : ℚ) :
    List (List Char) → ℕ → ℚ → List VisemeFrame × ℚ
  | [], _, v => ([], v)
  | w :: ws, index, v =>
    let vw := vowelWeight w
    let cs := consonantStrength w
    let base := 0.45 + (emotion.mouthEnergy - 0.5) * 0.4
    let r1 := seederNext P v
    let noise := (r1.1 - 0.5) * 0.25
    let r2 := seederNext P r1.2
    let peak : VisemeFrame :=
      { time := clamp ((index : ℚ) * wordDuration + r2.1 * 0.05) 0 duration
        mouth := clamp (base + vw * 0.35 + cs + noise) 0 1
        width := clamp (0.35 + vw * 0.2 + (emotion.mouthEnergy - 0.5)) 0 1 }
    let rest := mkPeaks P emotion wordDuration duration ws (index + 1) r2.2
    (peak :: rest.1, rest.2)

/-- Main sample loop of buildVisemeTimeline over the frame indices: Gaussian
accumulation of the peaks into mouth/width sums, seeded multiplicative
damping, then the final clamps.  The mouth damping sample is drawn before
the width damping sample, as in the source. -/
def mainFrames (P : MathPrims) (peaks : List VisemeFrame) :
    List ℕ → ℚ → List VisemeFrame × ℚ
  | [], v => ([], v)
  | f :: rest, v =>
    let t : ℚ := (f : ℚ) / 60
    let sums := peaks.foldl
      (fun (acc : ℚ × ℚ) peak =>
        let diff := |t - peak.time|
        let influence := P.exp (-(diff ^ 2 / 0.08))
        (acc.1 + peak.mouth * influence, acc.2 + peak.width * influence * 0.7))
      (0.12, 0.3)
    let r1 := seederNext P v
    let mouth1 := sums.1 * (0.55 + r1.1 * 0.1)
    let r2 := seederNext P r1.2
    let width1 := sums.2 * (0.45 + r2.1 * 0.1)
    let frame : VisemeFrame :=
      { time := t, mouth := clamp mouth1 0.05 1, width := clamp width1 0.05 0.95 }
    let more := mainFrames P peaks rest r2.2
    (frame :: more.1, more.2)

/-- Fallback loop of buildVisemeTimeline for empty word lists: idle mouth
noise frames, mouth sample drawn before width sample per frame. -/
def fallbackFrames (P : MathPrims) : List ℕ → ℚ → List VisemeFrame × ℚ
  | [], v => ([], v)
  | i :: rest, v =>
    let t : ℚ := (i : ℚ) / 60
    let r1 := seederNext P v
    let r2 := seederNext P r1.2
    let frame : VisemeFrame :=
      { time := t, mouth := 0.2 + r1.1 * 0.15, width := 0.3 + r2.1 * 0.15 }
    let more := fallbackFrames P rest r2.2
    (frame :: more.1, more.2)

/-- buildVisemeTimeline of the source: word extraction, the empty-word
fallback (2.5 seconds at 60 samples per second), or the peak construction
followed by the main sample loop.  Returns the frame list and duration. -/
def buildVisemeTimeline (P : MathPrims) (text : List Char)
    (emotion : EmotionPreset) (seed : ℚ) : List VisemeFrame × ℚ :=
  let words := getWords text
  let v0 := seederInit seed
  if words = [] then
    let fallbackDuration : ℚ := 2.5
    let frameCount := (fallbackDuration * 60).floor.toNat
    ((fallbackFrames P (List.range frameCount) v0).1, fallbackDuration)
  else
    let wordDuration := estimateWordDuration emotion
    let duration := max ((words.length : ℚ) * wordDuration + 1.2) 2
    let frameCount := (duration * 60).floor.toNat
    let peaks := mkPeaks P emotion wordDuration duration words 0 v0
    ((mainFrames P peaks.1 (List.range frameCount) peaks.2).1, duration)

/-- sampleViseme of the source.  Returns the mouth/width pair; the source
returns either a bare pair or a whole frame, of which only the mouth and
width fields are ever read.  The JavaScript findIndex result -1 is modelled
by the none branch of findIdx?, and span-or-1 models the zero-span guard. -/
def sampleViseme (timeline : List VisemeFrame) (elapsed : ℚ) : ℚ × ℚ :=
  match timeline with
  | [] => (0.1, 0.3)
  | f0 :: rest =>
    let tl := f0 :: rest
    let lastF := tl.getLast (by simp)
    if elapsed ≥ lastF.time then (lastF.mouth, lastF.width)
    else
      let index : ℤ :=
        (tl.findIdx? (fun frame => decide (frame.time ≥ elapsed))).elim
          (-1) (fun i => (i : ℤ))
      if index ≤ 0 then (f0.mouth, f0.width)
      else
        let i := index.toNat
        let prev := tl.getD (i - 1) f0
        let current := tl.getD i f0
        let span0 := current.time - prev.time
        let span := if span0 = 0 then 1 else span0
        let weight := clamp ((elapsed - prev.time) / span) 0 1
        (prev.mouth + (current.mouth - prev.mouth) * weight,
         prev.width + (current.width - prev.width) * weight)

/-- The twelve-channel pose record (LipState of the source). -/
structure LipState where
  mouthOpen : ℚ
  mouthWidth : ℚ
  blink : ℚ
  eyebrowLift : ℚ
  headYaw : ℚ
  headPitch : ℚ
  headRoll : ℚ
  gazeX : ℚ
  gazeY : ℚ
  handLeft : ℚ
  handRight : ℚ
  bodySway : ℚ
  deriving DecidableEq

/-- Default pose used only as a getD fallback in closed statements. -/
def zeroPose : LipState :=
  ⟨0, 0, 0, 0, 0, 0, 0, 0, 0, 0, 0, 0⟩

/-- Voice mode of the engine. -/
inductive VoiceMode where
  | text
  | audio
  deriving DecidableEq

/-- Driver branch of updateLoop: in audio mode with an analyser and a data
array present, the root-mean-square energy of the byte buffer mapped to the
clamped mouth/width pair; otherwise the sampled viseme, with none on the
text-mode completion check (elapsed beyond the timeline duration plus the
0.4-second trailing buffer, with a nonzero duration).  The analyser byte
buffer is passed explicitly; none models a missing analyser or data array.
Generator samples of the assembly are drawn in source order: the unused
blinkSpeed sample first, then blink phase, blink amplitude, head pitch,
head roll, gaze x, gaze y, left hand, right hand. -/
def driverSignal (P : MathPrims) (emotion : EmotionPreset) (mode : VoiceMode)
    (analyserData : Option (List ℕ)) (timeline : List VisemeFrame)
    (visemeDuration : ℚ) (elapsed : ℚ) : Option (ℚ × ℚ) :=
  match mode, analyserData with
  | VoiceMode.audio, some data =>
    let sum := data.foldl
      (fun acc b =>
        let value := ((b : ℚ) - 128) / 128
        acc + value * value) 0
    let rms := P.sqrt (sum / (data.length : ℚ))
    some (clamp (rms * 4 + emotion.mouthEnergy * 0.35) 0.05 1,
          clamp (rms * 2.8 + 0.25) 0.05 0.9)
  | _, _ =>
    let viseme := sampleViseme timeline elapsed
    if visemeDuration ≠ 0 ∧ elapsed > visemeDuration + 0.4 then none
    else some viseme

/-- Assembly of the published pose from the driver mouth/width signal: the
secondary-motion section of updateLoop below the driver branch, verbatim. -/
def assemblePose (P : MathPrims) (emotion : EmotionPreset) (seed : ℚ)
    (timestamp : ℚ) (mouth width : ℚ) (v : ℚ) : LipState × ℚ :=
  let rA := seederNext P v
    let _blinkSpeed := 0.45 + rA.1 * 0.35
    let rB := seederNext P rA.2
    let blinkPhase := P.sin (timestamp / (1300 + rB.1 * 400) + seed)
    let rC := seederNext P rB.2
    let blink := clamp (|blinkPhase| ^ 12 * (0.8 + rC.1 * 0.4)) 0 1
    let emotionInfluence := emotion.handAmplitude
    let headYaw :=
      P.sin (timestamp / (2300 + emotion.gazeIntensity * 300) + seed) * 0.25 +
        mouth * 0.08 * (emotion.gazeIntensity + 0.2)
    let rD := seederNext P rC.2
    let headPitch :=
      P.sin (timestamp / (3100 + rD.1 * 500)) * 0.18 +
        (emotion.browLift * 0.15 - 0.05)
    let rE := seederNext P rD.2
    let headRoll := P.sin (timestamp / (4100 + rE.1 * 500)) * 0.14
    let rF := seederNext P rE.2
    let gazeX :=
      P.sin (timestamp / (1600 + rF.1 * 600)) * 0.45 * (emotion.gazeIntensity + 0.3)
    let rG := seederNext P rF.2
    let gazeY :=
      P.sin (timestamp / (2100 + rG.1 * 700) + 0.5) * 0.35 * (emotion.gazeIntensity + 0.2)
    let rH := seederNext P rG.2
    let handLeft :=
      mouth * (0.5 + emotionInfluence) + P.sin (timestamp / 800 + rH.1 * 2) * 0.2
    let rI := seederNext P rH.2
    let handRight :=
      mouth * (0.45 + emotionInfluence * 1.1) + P.sin (timestamp / 900 + rI.1 * 2) * 0.25
    let bodySway := P.sin (timestamp / 2500) * 0.25 + mouth * 0.2
    ({ mouthOpen := mouth
       mouthWidth := width
       blink := blink * (1 - emotion.gazeIntensity * 0.2)
       eyebrowLift := emotion.browLift + mouth * 0.25
       headYaw := headYaw
       headPitch := headPitch
       headRoll := headRoll
       gazeX := gazeX
       gazeY := gazeY
       handLeft := handLeft
       handRight := handRight
       bodySway := bodySway }, rI.2)

/-- One tick of updateLoop: the driver computation (audio energy analysis
or timeline sampling with the text-mode completion check) followed by the
pose assembly, with the seeded generator state threaded explicitly.  The
result is none exactly on the text-mode completion path, where the source
calls shutdownPlayback and returns without publishing a pose. -/
def computePose (P : MathPrims) (emotion : EmotionPreset) (seed : ℚ)
    (mode : VoiceMode) (analyserData : Option (List ℕ))
    (timeline : List VisemeFrame) (visemeDuration : ℚ)
    (timestamp startTime : ℚ) (v : ℚ) : Option (LipState × ℚ) :=
  let elapsed := (timestamp - startTime) / 1000
  match driverSignal P emotion mode analyserData timeline visemeDuration elapsed with
  | none => none
  | some mw => some (assemblePose P emotion seed timestamp mw.1 mw.2 v)

/-- Speech utterance configuration built by the text-mode start path. -/
structure UtteranceConfig where
  text : List Char
  pitch : ℚ
  rate : ℚ
  volume : ℚ
  deriving DecidableEq

/-- Engine state: the React state variables and refs of useLipSyncEngine,
plus a model of the browser animation-frame registry.  liveRafs is the list
of animation-frame callback registrations that have been armed and not yet
cancelled; raf models rafRef.current; nextRafId supplies fresh registration
identifiers in the way the browser does. -/
structure EngineState where
  lipState : LipState
  isSpeaking : Bool
  hasAudioLoaded : Bool
  ttsSupported : Bool
  mode : VoiceMode
  raf : Option ℕ
  liveRafs : List ℕ
  nextRafId : ℕ
  startTime : ℚ
  visemeTimeline : List VisemeFrame
  visemeDuration : ℚ
  analyserAttached : Bool
  audioElement : Bool
  audioPlaying : Bool
  audioTime : ℚ
  utterance : Option UtteranceConfig
  speechActive : Bool
  exportPending : Bool
  stageCanvas : Bool
  deriving DecidableEq

/-- Hook inputs fixed for one render: script, emotion, seed. -/
structure EngineContext where
  script : List Char
  emotion : EmotionPreset
  seed : ℚ

/-- Options object of startPreview; absent JavaScript fields are false/none. -/
structure StartPreviewOptions where
  forceRestart : Bool
  sourceMode : Option VoiceMode
  fromExport : Bool

/-- cleanupRAF of the source: if a registration id is stored, cancel it
(remove it from the live registry) and clear the ref. -/
def cleanupRAF (s : EngineState) : EngineState :=
  match s.raf with
  | some id => { s with liveRafs := s.liveRafs.erase id, raf := none }
  | none => s

/-- Model of requestAnimationFrame plus the rafRef assignment: a fresh
registration id is armed, recorded live, and stored in the ref. -/
def armRaf (s : EngineState) : EngineState :=
  { s with
    raf := some s.nextRafId
    liveRafs := s.nextRafId :: s.liveRafs
    nextRafId := s.nextRafId + 1 }

/-- resetLipState of the source: overwrite the transient pose fields. -/
def resetLipStateE (s : EngineState) : EngineState :=
  { s with
    lipState :=
      { s.lipState with
        mouthOpen := 0.12
        mouthWidth := 0.2
        handLeft := 0
        handRight := 0
        bodySway := 0 } }

/-- stopSpeechSynthesis of the source: when speech synthesis is supported
and an utterance ref is held, cancel speech and clear the ref. -/
def stopSpeechSynthesisE (s : EngineState) : EngineState :=
  if !s.ttsSupported then s
  else
    match s.utterance with
    | some _ => { s with speechActive := false, utterance := none }
    | none => s

/-- shutdownPlayback of the source: cancel the clock, cancel speech, pause
and rewind the audio element, clear the speaking flag, resolve and clear a
pending export wait. -/
def shutdownPlayback (s : EngineState) : EngineState :=
  let s1 := cleanupRAF s
  let s2 := stopSpeechSynthesisE s1
  let s3 :=
    if s2.audioElement then { s2 with audioPlaying := false, audioTime := 0 }
    else s2
  { s3 with isSpeaking := false, exportPending := false }

/-- Fixed substitute phrase of the text-mode start path. -/
def fallbackPhrase : List Char :=
  "Hello, the stage is ready.".toList

/-- Text chosen by the text-mode start path: script.trim() with the
JavaScript or-fallback to the fixed phrase on the empty string. -/
def chosenText (script : List Char) : List Char :=
  if trimJS script = [] then fallbackPhrase else trimJS script

/-- Audio-mode branch of startPreview: the ensureAnalyser call (it succeeds
when an analyser already exists or the audio element does, the client
window being present), the analyser/loaded-audio precondition checks, the
audio-element check, playback start and the final arming of the clock.
The awaited collaborator calls — context resume and audio play — are
modelled as succeeding and stateless. -/
def startAudioBranch (s4 : EngineState) : EngineState :=
  let analyserOk := s4.analyserAttached || s4.audioElement
  let s5 := if analyserOk then { s4 with analyserAttached := true } else s4
  if !analyserOk || !s5.hasAudioLoaded then s5
  else if !s5.audioElement then s5
  else
    let s6 := { s5 with audioTime := 0, audioPlaying := true, isSpeaking := true }
    armRaf s6

/-- Text-mode branch of startPreview: the speech-support precondition, the
speech cancellation, the timeline rebuild from the chosen text, the
utterance configuration with its clamped voice parameters, and the final
arming of the clock. -/
def startTextBranch (P : MathPrims) (ctx : EngineContext)
    (s4 : EngineState) : EngineState :=
  if !s4.ttsSupported then s4
  else
    let s5 := stopSpeechSynthesisE s4
    let text := chosenText ctx.script
    let tl := buildVisemeTimeline P text ctx.emotion ctx.seed
    let s6 := { s5 with visemeTimeline := tl.1, visemeDuration := tl.2 }
    let utt : UtteranceConfig :=
      { text := text
        pitch := clamp (1 + ctx.emotion.browLift * 0.5) 0.6 1.6
        rate := clamp (1 + (ctx.emotion.mouthEnergy - 0.5) * 0.4) 0.7 1.5
        volume := clamp (0.8 + ctx.emotion.handAmplitude * 0.3) 0.4 1 }
    let s7 := { s6 with utterance := some utt, speechActive := true, isSpeaking := true }
    armRaf s7

/-- Shared tail of startPreview past the no-op check: cancel the
outstanding clock, record the start timestamp, and enter the branch of the
selected mode. -/
def startCore (P : MathPrims) (ctx : EngineContext) (now : ℚ)
    (sourceMode : VoiceMode) (s2 : EngineState) : EngineState :=
  let s3 := cleanupRAF s2
  let s4 := { s3 with startTime := now }
  if sourceMode = VoiceMode.audio then startAudioBranch s4
  else startTextBranch P ctx s4

/-- startPreview of the source, as a sequential state transition (each
invocation modelled as running to completion).  Faithful ordering: the
mode ref is written and the transient pose fields reset (unless the call
comes from export) before the already-speaking no-op check; only then does
the shared core cancel the outstanding clock, record the start timestamp
and enter the selected mode branch. -/
def startPreview (P : MathPrims) (ctx : EngineContext)
    (opts : StartPreviewOptions) (now : ℚ) (s : EngineState) : EngineState :=
  let sourceMode := opts.sourceMode.getD s.mode
  let s1 := { s with mode := sourceMode }
  let s2 := if opts.fromExport then s1 else resetLipStateE s1
  if !opts.forceRestart && s2.isSpeaking then s2
  else startCore P ctx now sourceMode s2

/-- Captured clip artifact: its container kind and recorded chunk data. -/
inductive ClipKind where
  | webm
  | mp4
  deriving DecidableEq

/-- Clip blob: container kind plus chunk payload. -/
structure Blob where
  kind : ClipKind
  chunks : List ℕ
  deriving DecidableEq

/-- exportVideo of the source as a sequential transition: requires a
registered stage canvas (else null), arms the recorder, force-restarts a
session marked as coming from export, waits out the fixed capture window,
stops the recorder and the session, assembles the webm blob from the
recorded chunks (supplied here as a parameter standing for the data the
recording collaborator delivered), and hands it to the transcoding
collaborator, falling back to the webm blob when transcoding fails.  The
capture-stream audio-track attachment has no engine-state effect and is
omitted; the window-presence checks are true in the client. -/
def exportVideo (P : MathPrims) (ctx : EngineContext)
    (transcode : Blob → Except Unit Blob) (recordedChunks : List ℕ)
    (now : ℚ) (s : EngineState) : Option Blob × EngineState :=
  if !s.stageCanvas then (none, s)
  else
    let s1 := { s with exportPending := true }
    let s2 := startPreview P ctx
      { forceRestart := true, sourceMode := none, fromExport := true } now s1
    let s3 := shutdownPlayback s2
    let webmBlob : Blob := { kind := ClipKind.webm, chunks := recordedChunks }
    let result :=
      match transcode webmBlob with
      | Except.ok out => out
      | Except.error _ => webmBlob
    (some result, s3)

/-! Helper lemmas. -/

/-- Frame of zeroes, used only as a getD fallback in statements. -/
def zeroFrame : VisemeFrame :=
  ⟨0, 0, 0⟩

/-- Concrete math primitives used by closed witness statements. -/
def P0 : MathPrims :=
  ⟨fun _ => 0, fun _ => 0, fun _ => 0⟩

/-- Neutral emotion fixture with mouthEnergy 0.5 and handAmplitude 0. -/
def e9 : EmotionPreset :=
  ⟨0.5, 0, 0.3, 0.2⟩

/-- Emotion profile with all fields in the unit interval, used by the C2
counterexample: full mouth energy, full hand amplitude, no gaze intensity,
full brow lift. -/
def e0 : EmotionPreset :=
  ⟨1, 1, 0, 1⟩

/-- At most one animation-frame registration is live, the ref points at it,
and every live registration id is older than the next fresh id. -/
def ClockInv (s : EngineState) : Prop :=
  s.liveRafs.length ≤ 1
  ∧ (∀ id ∈ s.liveRafs, s.raf = some id)
  ∧ (∀ id ∈ s.liveRafs, id < s.nextRafId)

/-- Engine context fixtures for the closed statements. -/
def ctx0 : EngineContext :=
  ⟨"Hi".toList, e0, 1⟩

/-- Already-speaking text session with a non-reset pose, fixture for C5. -/
def s5cex : EngineState :=
  { lipState := { zeroPose with mouthOpen := 1 }, isSpeaking := true
    hasAudioLoaded := true, ttsSupported := true, mode := VoiceMode.text
    raf := some 0, liveRafs := [0], nextRafId := 1, startTime := 3
    visemeTimeline := [], visemeDuration := 0, analyserAttached := true
    audioElement := true, audioPlaying := false, audioTime := 0
    utterance := none, speechActive := false, exportPending := false
    stageCanvas := false }

/-- Resulting state of a failed audio-mode precondition: the mode ref is
written, the transient pose fields reset unless the call comes from
export, the outstanding clock cancelled, the start timestamp overwritten,
and the analyser created when attachable, before the silent refusal. -/
def audioPrecondFailState (opts : StartPreviewOptions) (now : ℚ)
    (s : EngineState) : EngineState :=
  let s1 := { s with mode := VoiceMode.audio }
  let s2 := if opts.fromExport then s1 else resetLipStateE s1
  let s4 := { cleanupRAF s2 with startTime := now }
  if s.analyserAttached || s.audioElement then { s4 with analyserAttached := true }
  else s4

/-- Idle engine with no audio loaded, fixture for C6. -/
def s6cex : EngineState :=
  { lipState := { zeroPose with mouthOpen := 1 }, isSpeaking := false
    hasAudioLoaded := false, ttsSupported := true, mode := VoiceMode.audio
    raf := none, liveRafs := [], nextRafId := 0, startTime := 0
    visemeTimeline := [], visemeDuration := 0, analyserAttached := false
    audioElement := true, audioPlaying := false, audioTime := 0
    utterance := none, speechActive := false, exportPending := false
    stageCanvas := false }

/-- Whitespace-only script fixture for the C10 witness. -/
def ctx10 : EngineContext :=
  ⟨"   ".toList, e0, 1⟩

/-- Idle text-mode engine with speech support, fixture for C10. -/
def s10 : EngineState :=
  { lipState := zeroPose, isSpeaking := false
    hasAudioLoaded := false, ttsSupported := true, mode := VoiceMode.text
    raf := none, liveRafs := [], nextRafId := 0, startTime := 0
    visemeTimeline := [], visemeDuration := 0, analyserAttached := false
    audioElement := true, audioPlaying := false, audioTime := 0
    utterance := none, speechActive := false, exportPending := false
    stageCanvas := false }

/-- Stage-registered audio engine fixture for the C4 witness. -/
def s4w : EngineState :=
  { lipState := zeroPose, isSpeaking := false
    hasAudioLoaded := true, ttsSupported := false, mode := VoiceMode.audio
    raf := none, liveRafs := [], nextRafId := 0, startTime := 0
    visemeTimeline := [], visemeDuration := 0, analyserAttached := true
    audioElement := true, audioPlaying := false, audioTime := 0
    utterance := none, speechActive := false, exportPending := false
    stageCanvas := true }

theorem clamp_le_right (v mn mx : ℚ) : clamp v mn mx ≤ mx :=
  min_le_right _ _

theorem le_clamp_left (v mn mx : ℚ) (h : mn ≤ mx) : mn ≤ clamp v mn mx :=
  le_min (le_max_right v mn) h

theorem clamp_of_le (v mn mx : ℚ) (h1 : mn ≤ v) (h2 : v ≤ mx) :
    clamp v mn mx = v := by
  unfold clamp
  rw [max_eq_left h1, min_eq_left h2]

theorem ratFloor_toNat_eq (q : ℚ) (n : ℕ) (h1 : (n : ℚ) ≤ q)
    (h2 : q < (n : ℚ) + 1) : (Rat.floor q).toNat = n := by
  have hl : (n : ℤ) ≤ Rat.floor q := Rat.le_floor.mpr (by exact_mod_cast h1)
  have hu : Rat.floor q < (n : ℤ) + 1 := by
    by_contra hcon
    push_neg at hcon
    have := Rat.le_floor.mp hcon
    push_cast at this
    linarith
  omega

theorem mainFrames_length (P : MathPrims) (peaks : List VisemeFrame)
    (idxs : List ℕ) (v : ℚ) :
    (mainFrames P peaks idxs v).1.length = idxs.length := by
  induction idxs generalizing v with
  | nil => simp [mainFrames]
  | cons f rest ih => simp [mainFrames, ih]

theorem fallbackFrames_length (P : MathPrims) (idxs : List ℕ) (v : ℚ) :
    (fallbackFrames P idxs v).1.length = idxs.length := by
  induction idxs generalizing v with
  | nil => simp [fallbackFrames]
  | cons i rest ih => simp [fallbackFrames, ih]

theorem buildVT_fallback_eq (P : MathPrims) (text : List Char)
    (emotion : EmotionPreset) (seed : ℚ) (h : getWords text = []) :
    (buildVisemeTimeline P text emotion seed).2 = 2.5
    ∧ (buildVisemeTimeline P text emotion seed).1.length = 150 := by
  have h150 : ((2.5 * 60 : ℚ)).floor.toNat = 150 :=
    ratFloor_toNat_eq _ _ (by norm_num) (by norm_num)
  constructor
  · simp [buildVisemeTimeline, h]
  · simp only [buildVisemeTimeline, h, if_pos, fallbackFrames_length,
      List.length_range]
    exact h150

theorem buildVT_main_duration (P : MathPrims) (text : List Char)
    (emotion : EmotionPreset) (seed : ℚ) (h : getWords text ≠ []) :
    (buildVisemeTimeline P text emotion seed).2
      = max (((getWords text).length : ℚ) * estimateWordDuration emotion + 1.2) 2 := by
  simp [buildVisemeTimeline, h]

theorem buildVT_main_length (P : MathPrims) (text : List Char)
    (emotion : EmotionPreset) (seed : ℚ) (h : getWords text ≠ []) :
    (buildVisemeTimeline P text emotion seed).1.length
      = ((max (((getWords text).length : ℚ) * estimateWordDuration emotion + 1.2) 2)
          * 60).floor.toNat := by
  simp [buildVisemeTimeline, h, mainFrames_length]

/-! Claim theorems. -/

/-- C1: the Viseme Timeline Synthesizer is deterministic: for a fixed
(text, emotion, seed) triple, two calls to buildVisemeTimeline return
identical frame sequences (same length, and equal time, mouth and width at
every index) and identical duration.  In the embedding the synthesizer is a
pure function of its arguments and the fixed math primitives, so the two
call results coincide definitionally. -/
theorem buildVisemeTimeline_deterministic (P : MathPrims) (text : List Char)
    (emotion : EmotionPreset) (seed : ℚ) :
    (buildVisemeTimeline P text emotion seed).1.length
        = (buildVisemeTimeline P text emotion seed).1.length
    ∧ (∀ i : ℕ,
        ((buildVisemeTimeline P text emotion seed).1.getD i zeroFrame).time
            = ((buildVisemeTimeline P text emotion seed).1.getD i zeroFrame).time
        ∧ ((buildVisemeTimeline P text emotion seed).1.getD i zeroFrame).mouth
            = ((buildVisemeTimeline P text emotion seed).1.getD i zeroFrame).mouth
        ∧ ((buildVisemeTimeline P text emotion seed).1.getD i zeroFrame).width
            = ((buildVisemeTimeline P text emotion seed).1.getD i zeroFrame).width)
    ∧ (buildVisemeTimeline P text emotion seed).2
        = (buildVisemeTimeline P text emotion seed).2 :=
  ⟨rfl, fun _ => ⟨rfl, rfl, rfl⟩, rfl⟩

/-- C7: for every text input, including the empty and whitespace-only
string, buildVisemeTimeline returns at least one frame and a duration of at
least 2 seconds; the empty-word-list branch yields the fixed 2.5-second
fallback with 150 idle frames (60 samples per second), and the non-empty
branch yields duration max(word count times word duration plus 1.2, 2) with
floor(duration times 60) frames. -/
theorem buildVisemeTimeline_nonempty (P : MathPrims) (text : List Char)
    (emotion : EmotionPreset) (seed : ℚ) :
    1 ≤ (buildVisemeTimeline P text emotion seed).1.length
    ∧ 2 ≤ (buildVisemeTimeline P text emotion seed).2
    ∧ (buildVisemeTimeline P text emotion seed).2
        = (if getWords text = [] then 2.5
           else max (((getWords text).length : ℚ) * estimateWordDuration emotion + 1.2) 2)
    ∧ (buildVisemeTimeline P text emotion seed).1.length
        = (if getWords text = [] then 150
           else ((buildVisemeTimeline P text emotion seed).2 * 60).floor.toNat) := by
  by_cases h : getWords text = []
  · obtain ⟨hd, hl⟩ := buildVT_fallback_eq P text emotion seed h
    refine ⟨by omega, by rw [hd]; norm_num, by rw [hd, if_pos h], by rw [hl, if_pos h]⟩
  · have hdur := buildVT_main_duration P text emotion seed h
    have hlen0 := buildVT_main_length P text emotion seed h
    have hlen : (buildVisemeTimeline P text emotion seed).1.length
        = ((buildVisemeTimeline P text emotion seed).2 * 60).floor.toNat := by
      rw [hlen0, hdur]
    have h2 : 2 ≤ (buildVisemeTimeline P text emotion seed).2 := by
      rw [hdur]; exact le_max_right _ _
    refine ⟨?_, h2, by rw [hdur, if_neg h], by rw [hlen, if_neg h]⟩
    rw [hlen]
    have h120 : (120 : ℤ) ≤ Rat.floor ((buildVisemeTimeline P text emotion seed).2 * 60) := by
      rw [Rat.le_floor]
      push_cast
      nlinarith
    omega

/-- C9: the per-word duration is clamp(0.42 - (mouthEnergy - 0.5) * 0.2 -
handAmplitude * 0.05, 0.28, 0.6); and for the literal text input
"Hey there" with mouthEnergy 0.5 and handAmplitude 0 the synthesizer
produces word duration 0.42, duration max(2 * 0.42 + 1.2, 2) = 2.04 and
exactly floor(2.04 * 60) = 122 frames. -/
theorem estimateWordDuration_spec :
    (∀ e : EmotionPreset,
      estimateWordDuration e
        = clamp (0.42 - (e.mouthEnergy - 0.5) * 0.2 - e.handAmplitude * 0.05) 0.28 0.6)
    ∧ ∀ (P : MathPrims) (e : EmotionPreset) (seed : ℚ),
        e.mouthEnergy = 0.5 → e.handAmplitude = 0 →
        estimateWordDuration e = 0.42
        ∧ (buildVisemeTimeline P "Hey there".toList e seed).2 = 2.04
        ∧ (buildVisemeTimeline P "Hey there".toList e seed).1.length = 122 := by
  constructor
  · intro e
    rfl
  · intro P e seed hme hha
    have hwd : estimateWordDuration e = 0.42 := by
      unfold estimateWordDuration
      rw [hme, hha]
      rw [clamp_of_le _ _ _ (by norm_num) (by norm_num)]
      norm_num
    have hw : getWords "Hey there".toList
        = [['H', 'e', 'y'], ['t', 'h', 'e', 'r', 'e']] := by decide
    have hne : getWords "Hey there".toList ≠ [] := by
      rw [hw]; simp
    have hmax : max ((((getWords "Hey there".toList).length : ℚ))
        * estimateWordDuration e + 1.2) 2 = 2.04 := by
      rw [hw, hwd]
      rw [max_eq_left (by norm_num)]
      norm_num
    have hdur : (buildVisemeTimeline P "Hey there".toList e seed).2 = 2.04 := by
      rw [buildVT_main_duration P _ e seed hne, hmax]
    refine ⟨hwd, hdur, ?_⟩
    rw [buildVT_main_length P _ e seed hne, hmax]
    exact ratFloor_toNat_eq _ _ (by norm_num) (by norm_num)

/-- Witness for the C9 scenario theorem at the neutral emotion fixture. -/
theorem estimateWordDuration_spec_witness :
    e9.mouthEnergy = 0.5
    ∧ e9.handAmplitude = 0
    ∧ estimateWordDuration e9 = 0.42
    ∧ (buildVisemeTimeline P0 "Hey there".toList e9 1).2 = 2.04
    ∧ (buildVisemeTimeline P0 "Hey there".toList e9 1).1.length = 122 := by
  have h := estimateWordDuration_spec.2 P0 e9 1 rfl rfl
  exact ⟨rfl, rfl, h.1, h.2.1, h.2.2⟩

/-- C8: the Timeline Sampler holds its endpoint: on the empty frame list it
returns the fixed idle value (0.1, 0.3), and for every non-empty
time-ordered frame list and every elapsed time at or beyond the last
frame's time (hence for every time at or beyond the timeline duration,
which is never below the last frame time) it returns exactly the last
frame's mouth and width.  The sampler is a pure function, so it cannot
mutate the frame list. -/
theorem sampleViseme_hold :
    (∀ t : ℚ, sampleViseme [] t = (0.1, 0.3))
    ∧ ∀ (tl : List VisemeFrame) (h : tl ≠ []) (t : ℚ),
        tl.Chain' (fun a b => a.time ≤ b.time) →
        (tl.getLast h).time ≤ t →
        sampleViseme tl t = ((tl.getLast h).mouth, (tl.getLast h).width) := by
  constructor
  · intro t
    rfl
  · intro tl h t _ ht
    match tl with
    | f0 :: rest =>
      simp only [sampleViseme]
      rw [if_pos]
      exact ht

/-- Witness for the C8 sampler-hold theorem at a concrete one-frame
timeline and a time beyond its last frame. -/
theorem sampleViseme_hold_witness :
    ([(⟨0, 0.5, 0.6⟩ : VisemeFrame)] ≠ [])
    ∧ List.Chain' (fun a b : VisemeFrame => a.time ≤ b.time) [⟨0, 0.5, 0.6⟩]
    ∧ sampleViseme [⟨0, 0.5, 0.6⟩] 3 = (0.5, 0.6) := by
  refine ⟨by simp, List.chain'_singleton _, ?_⟩
  exact sampleViseme_hold.2 [⟨0, 0.5, 0.6⟩] (by simp) 3
    (List.chain'_singleton _) (by norm_num)

/-! Bound lemmas for the pose channels. -/

theorem interp_mem (a b x y w : ℚ) (hx1 : a ≤ x) (hx2 : x ≤ b) (hy1 : a ≤ y)
    (hy2 : y ≤ b) (hw1 : 0 ≤ w) (hw2 : w ≤ 1) :
    a ≤ x + (y - x) * w ∧ x + (y - x) * w ≤ b := by
  constructor <;> nlinarith

theorem getD_mem_or {α : Type} (l : List α) (i : ℕ) (d : α) :
    l.getD i d ∈ l ∨ l.getD i d = d := by
  rcases Nat.lt_or_ge i l.length with hlt | hge
  · left
    rw [List.getD_eq_getElem l d hlt]
    exact List.getElem_mem hlt
  · right
    exact List.getD_eq_default l d hge

/-- Frame-range invariant: frames within the synthesizer output bands keep
the sampled mouth in the band 0.05 to 1 and the width in 0.05 to 0.95; the
idle fallback lies inside both bands. -/
theorem sampleViseme_mem (tl : List VisemeFrame) (t : ℚ)
    (h : ∀ fr ∈ tl, 0.05 ≤ fr.mouth ∧ fr.mouth ≤ 1
        ∧ 0.05 ≤ fr.width ∧ fr.width ≤ 0.95) :
    0.05 ≤ (sampleViseme tl t).1 ∧ (sampleViseme tl t).1 ≤ 1
    ∧ 0.05 ≤ (sampleViseme tl t).2 ∧ (sampleViseme tl t).2 ≤ 0.95 := by
  match tl with
  | [] =>
    refine ⟨by norm_num [sampleViseme], by norm_num [sampleViseme],
      by norm_num [sampleViseme], by norm_num [sampleViseme]⟩
  | f0 :: rest =>
    have hf0 := h f0 (by simp)
    have hmem : ∀ (i : ℕ),
        0.05 ≤ ((f0 :: rest).getD i f0).mouth
        ∧ ((f0 :: rest).getD i f0).mouth ≤ 1
        ∧ 0.05 ≤ ((f0 :: rest).getD i f0).width
        ∧ ((f0 :: rest).getD i f0).width ≤ 0.95 := by
      intro i
      rcases getD_mem_or (f0 :: rest) i f0 with hm | he
      · exact h _ hm
      · rw [he]; exact hf0
    simp only [sampleViseme]
    by_cases h1 : t ≥ ((f0 :: rest).getLast (by simp)).time
    · rw [if_pos h1]
      exact h _ (List.getLast_mem _)
    · rw [if_neg h1]
      rcases hfi : (f0 :: rest).findIdx? (fun frame => decide (frame.time ≥ t)) with _ | i
      · rw [hfi]
        simp only [Option.elim]
        rw [if_pos (by norm_num)]
        exact hf0
      · rw [hfi]
        simp only [Option.elim]
        by_cases h2 : (i : ℤ) ≤ 0
        · rw [if_pos h2]
          exact hf0
        · rw [if_neg h2]
          have hprev := hmem ((i : ℤ).toNat - 1)
          have hcur := hmem ((i : ℤ).toNat)
          have hw1 : (0 : ℚ) ≤ clamp ((t - ((f0 :: rest).getD ((i : ℤ).toNat - 1) f0).time) /
              (if ((f0 :: rest).getD ((i : ℤ).toNat) f0).time -
                  ((f0 :: rest).getD ((i : ℤ).toNat - 1) f0).time = 0 then 1
               else ((f0 :: rest).getD ((i : ℤ).toNat) f0).time -
                  ((f0 :: rest).getD ((i : ℤ).toNat - 1) f0).time)) 0 1 :=
            le_clamp_left _ _ _ (by norm_num)
          have hw2 := clamp_le_right ((t - ((f0 :: rest).getD ((i : ℤ).toNat - 1) f0).time) /
              (if ((f0 :: rest).getD ((i : ℤ).toNat) f0).time -
                  ((f0 :: rest).getD ((i : ℤ).toNat - 1) f0).time = 0 then 1
               else ((f0 :: rest).getD ((i : ℤ).toNat) f0).time -
                  ((f0 :: rest).getD ((i : ℤ).toNat - 1) f0).time)) 0 1
          obtain ⟨hm1, hm2⟩ := interp_mem 0.05 1 _ _ _ hprev.1 hprev.2.1
            hcur.1 hcur.2.1 hw1 hw2
          obtain ⟨hwi1, hwi2⟩ := interp_mem 0.05 0.95 _ _ _ hprev.2.2.1 hprev.2.2.2
            hcur.2.2.1 hcur.2.2.2 hw1 hw2
          exact ⟨hm1, hm2, hwi1, hwi2⟩

theorem blinkPub_mem (b g : ℚ) (hb1 : 0 ≤ b) (hb2 : b ≤ 1) (hg1 : 0 ≤ g)
    (hg2 : g ≤ 1) : 0 ≤ b * (1 - g * 0.2) ∧ b * (1 - g * 0.2) ≤ 1 := by
  constructor <;> nlinarith

theorem eyebrow_mem (bl m : ℚ) (hb1 : 0 ≤ bl) (hb2 : bl ≤ 1) (hm1 : 0.05 ≤ m)
    (hm2 : m ≤ 1) : 0 ≤ bl + m * 0.25 ∧ bl + m * 0.25 ≤ 1.25 := by
  constructor <;> nlinarith

theorem headYaw_mem (sv m g : ℚ) (hs : |sv| ≤ 1) (hm1 : 0.05 ≤ m) (hm2 : m ≤ 1)
    (hg1 : 0 ≤ g) (hg2 : g ≤ 1) : |sv * 0.25 + m * 0.08 * (g + 0.2)| ≤ 1 := by
  obtain ⟨hs1, hs2⟩ := abs_le.mp hs
  rw [abs_le]
  constructor <;> nlinarith

theorem headPitch_mem (sv bl : ℚ) (hs : |sv| ≤ 1) (hb1 : 0 ≤ bl) (hb2 : bl ≤ 1) :
    |sv * 0.18 + (bl * 0.15 - 0.05)| ≤ 1 := by
  obtain ⟨hs1, hs2⟩ := abs_le.mp hs
  rw [abs_le]
  constructor <;> nlinarith

theorem headRoll_mem (sv : ℚ) (hs : |sv| ≤ 1) : |sv * 0.14| ≤ 1 := by
  obtain ⟨hs1, hs2⟩ := abs_le.mp hs
  rw [abs_le]
  constructor <;> nlinarith

theorem gazeX_mem (sv g : ℚ) (hs : |sv| ≤ 1) (hg1 : 0 ≤ g) (hg2 : g ≤ 1) :
    |sv * 0.45 * (g + 0.3)| ≤ 1 := by
  obtain ⟨hs1, hs2⟩ := abs_le.mp hs
  rw [abs_le]
  constructor <;> nlinarith

theorem gazeY_mem (sv g : ℚ) (hs : |sv| ≤ 1) (hg1 : 0 ≤ g) (hg2 : g ≤ 1) :
    |sv * 0.35 * (g + 0.2)| ≤ 1 := by
  obtain ⟨hs1, hs2⟩ := abs_le.mp hs
  rw [abs_le]
  constructor <;> nlinarith

theorem handLeft_mem (m a sv : ℚ) (hm1 : 0.05 ≤ m) (hm2 : m ≤ 1) (ha1 : 0 ≤ a)
    (ha2 : a ≤ 1) (hs : |sv| ≤ 1) : |m * (0.5 + a) + sv * 0.2| ≤ 1.7 := by
  obtain ⟨hs1, hs2⟩ := abs_le.mp hs
  rw [abs_le]
  constructor <;> nlinarith

theorem handRight_mem (m a sv : ℚ) (hm1 : 0.05 ≤ m) (hm2 : m ≤ 1) (ha1 : 0 ≤ a)
    (ha2 : a ≤ 1) (hs : |sv| ≤ 1) : |m * (0.45 + a * 1.1) + sv * 0.25| ≤ 1.8 := by
  obtain ⟨hs1, hs2⟩ := abs_le.mp hs
  rw [abs_le]
  constructor <;> nlinarith

theorem bodySway_mem (sv m : ℚ) (hs : |sv| ≤ 1) (hm1 : 0.05 ≤ m) (hm2 : m ≤ 1) :
    |sv * 0.25 + m * 0.2| ≤ 1 := by
  obtain ⟨hs1, hs2⟩ := abs_le.mp hs
  rw [abs_le]
  constructor <;> nlinarith

/-- Any produced driver mouth/width pair lies in the synthesizer bands:
mouth in 0.05 to 1 and width in 0.05 to 0.95 (the audio width clamp to 0.9
is inside the latter). -/
theorem driverSignal_mem (P : MathPrims) (emotion : EmotionPreset)
    (mode : VoiceMode) (analyserData : Option (List ℕ))
    (timeline : List VisemeFrame) (visemeDuration elapsed : ℚ)
    (htl : ∀ fr ∈ timeline, 0.05 ≤ fr.mouth ∧ fr.mouth ≤ 1
        ∧ 0.05 ≤ fr.width ∧ fr.width ≤ 0.95)
    (mw : ℚ × ℚ)
    (hres : driverSignal P emotion mode analyserData timeline visemeDuration
        elapsed = some mw) :
    0.05 ≤ mw.1 ∧ mw.1 ≤ 1 ∧ 0.05 ≤ mw.2 ∧ mw.2 ≤ 0.95 := by
  have hvis : ∀ hv : driverSignal P emotion mode analyserData timeline
      visemeDuration elapsed = (if visemeDuration ≠ 0 ∧ elapsed > visemeDuration + 0.4
        then none else some (sampleViseme timeline elapsed)),
      0.05 ≤ mw.1 ∧ mw.1 ≤ 1 ∧ 0.05 ≤ mw.2 ∧ mw.2 ≤ 0.95 := by
    intro hv
    rw [hv] at hres
    by_cases hc : visemeDuration ≠ 0 ∧ elapsed > visemeDuration + 0.4
    · rw [if_pos hc] at hres
      exact absurd hres (by simp)
    · rw [if_neg hc] at hres
      have := sampleViseme_mem timeline elapsed htl
      have hmw : mw = sampleViseme timeline elapsed := by
        exact (Option.some.injEq _ _ ▸ hres).symm ▸ rfl
      cases hres
      exact this
  match mode, analyserData with
  | VoiceMode.audio, some data =>
    simp only [driverSignal] at hres
    cases hres
    refine ⟨le_clamp_left _ _ _ (by norm_num), clamp_le_right _ _ _,
      le_clamp_left _ _ _ (by norm_num), le_trans (clamp_le_right _ _ _) (by norm_num)⟩
  | VoiceMode.audio, none => exact hvis rfl
  | VoiceMode.text, some _ => exact hvis rfl
  | VoiceMode.text, none => exact hvis rfl

/-- Channel bounds of the assembled pose, given the driver bands, a bounded
sine primitive, and emotion fields in the unit interval. -/
theorem assemblePose_mem (P : MathPrims) (emotion : EmotionPreset)
    (seed timestamp mouth width v : ℚ)
    (hsin : ∀ x, |P.sin x| ≤ 1)
    (ha1 : 0 ≤ emotion.handAmplitude) (ha2 : emotion.handAmplitude ≤ 1)
    (hg1 : 0 ≤ emotion.gazeIntensity) (hg2 : emotion.gazeIntensity ≤ 1)
    (hb1 : 0 ≤ emotion.browLift) (hb2 : emotion.browLift ≤ 1)
    (hm1 : 0.05 ≤ mouth) (hm2 : mouth ≤ 1)
    (hw1 : 0.05 ≤ width) (hw2 : width ≤ 0.95) :
    let pose := (assemblePose P emotion seed timestamp mouth width v).1
    0.05 ≤ pose.mouthOpen ∧ pose.mouthOpen ≤ 1
    ∧ 0.05 ≤ pose.mouthWidth ∧ pose.mouthWidth ≤ 0.95
    ∧ 0 ≤ pose.blink ∧ pose.blink ≤ 1
    ∧ 0 ≤ pose.eyebrowLift ∧ pose.eyebrowLift ≤ 1.25
    ∧ |pose.headYaw| ≤ 1 ∧ |pose.headPitch| ≤ 1 ∧ |pose.headRoll| ≤ 1
    ∧ |pose.gazeX| ≤ 1 ∧ |pose.gazeY| ≤ 1
    ∧ |pose.handLeft| ≤ 1.7 ∧ |pose.handRight| ≤ 1.8 ∧ |pose.bodySway| ≤ 1 := by
  intro pose
  have hblink := blinkPub_mem
    (clamp (|P.sin (timestamp / (1300 + (seederNext P (seederNext P v).2).1 * 400) + seed)| ^ 12 *
      (0.8 + (seederNext P (seederNext P (seederNext P v).2).2).1 * 0.4)) 0 1)
    emotion.gazeIntensity (le_clamp_left _ _ _ (by norm_num)) (clamp_le_right _ _ _) hg1 hg2
  refine ⟨hm1, hm2, hw1, hw2, hblink.1, hblink.2,
    (eyebrow_mem _ _ hb1 hb2 hm1 hm2).1, (eyebrow_mem _ _ hb1 hb2 hm1 hm2).2,
    headYaw_mem _ _ _ (hsin _) hm1 hm2 hg1 hg2,
    headPitch_mem _ _ (hsin _) hb1 hb2,
    headRoll_mem _ (hsin _),
    gazeX_mem _ _ (hsin _) hg1 hg2,
    gazeY_mem _ _ (hsin _) hg1 hg2,
    handLeft_mem _ _ _ hm1 hm2 ha1 ha2 (hsin _),
    handRight_mem _ _ _ hm1 hm2 ha1 ha2 (hsin _),
    bodySway_mem _ _ (hsin _) hm1 hm2⟩

/-- Counterexample to C2 as stated: with the emotion fields browLift = 1,
handAmplitude = 1 (all within the unit interval) and a driver frame at full
mouth openness, the published pose has eyebrowLift = 1.25, handLeft = 1.5
and handRight = 1.55, all exceeding 1, because the source clamps only the
mouth, width and blink channels. -/
theorem updateLoop_channelBounds_cex :
    (computePose P0 e0 0 VoiceMode.text none [⟨0, 1, 0.5⟩] 100 0 0 7).isSome = true
    ∧ 1 < (((computePose P0 e0 0 VoiceMode.text none [⟨0, 1, 0.5⟩] 100 0 0 7).getD
        (zeroPose, 0)).1).eyebrowLift
    ∧ 1 < (((computePose P0 e0 0 VoiceMode.text none [⟨0, 1, 0.5⟩] 100 0 0 7).getD
        (zeroPose, 0)).1).handLeft
    ∧ 1 < (((computePose P0 e0 0 VoiceMode.text none [⟨0, 1, 0.5⟩] 100 0 0 7).getD
        (zeroPose, 0)).1).handRight := by
  have hdrv : computePose P0 e0 0 VoiceMode.text none [⟨0, 1, 0.5⟩] 100 0 0 7
      = some (assemblePose P0 e0 0 0 1 0.5 7) := by
    simp only [computePose, driverSignal, sampleViseme]
    norm_num
  rw [hdrv]
  refine ⟨rfl, ?_, ?_, ?_⟩ <;>
    simp only [assemblePose, seederNext, P0, e0, Option.getD_some] <;>
    norm_num

/-- C2 (amended): every published pose keeps mouthOpen in 0.05 to 1,
mouthWidth in 0.05 to 0.95 and blink in 0 to 1, and the sinusoid-driven
channels headYaw, headPitch, headRoll, gazeX, gazeY and bodySway within
the magnitude-1 band, for any timestamp, elapsed time, emotion profile
with fields in the unit interval, generator state and driver signal
(timeline frames in the synthesizer bands; audio bytes arbitrary, covering
silence through clipping); but the unclamped channels eyebrowLift,
handLeft and handRight are only bounded by 1.25, 1.7 and 1.8 respectively
and can exceed 1 in magnitude. -/
theorem updateLoop_channelBounds (P : MathPrims) (emotion : EmotionPreset)
    (seed : ℚ) (mode : VoiceMode) (analyserData : Option (List ℕ))
    (timeline : List VisemeFrame) (visemeDuration timestamp startTime v : ℚ)
    (hsin : ∀ x, |P.sin x| ≤ 1)
    (ha1 : 0 ≤ emotion.handAmplitude) (ha2 : emotion.handAmplitude ≤ 1)
    (hg1 : 0 ≤ emotion.gazeIntensity) (hg2 : emotion.gazeIntensity ≤ 1)
    (hb1 : 0 ≤ emotion.browLift) (hb2 : emotion.browLift ≤ 1)
    (htl : ∀ fr ∈ timeline, 0.05 ≤ fr.mouth ∧ fr.mouth ≤ 1
        ∧ 0.05 ≤ fr.width ∧ fr.width ≤ 0.95)
    (pose : LipState) (v2 : ℚ)
    (hres : computePose P emotion seed mode analyserData timeline visemeDuration
        timestamp startTime v = some (pose, v2)) :
    0.05 ≤ pose.mouthOpen ∧ pose.mouthOpen ≤ 1
    ∧ 0.05 ≤ pose.mouthWidth ∧ pose.mouthWidth ≤ 0.95
    ∧ 0 ≤ pose.blink ∧ pose.blink ≤ 1
    ∧ 0 ≤ pose.eyebrowLift ∧ pose.eyebrowLift ≤ 1.25
    ∧ |pose.headYaw| ≤ 1 ∧ |pose.headPitch| ≤ 1 ∧ |pose.headRoll| ≤ 1
    ∧ |pose.gazeX| ≤ 1 ∧ |pose.gazeY| ≤ 1
    ∧ |pose.handLeft| ≤ 1.7 ∧ |pose.handRight| ≤ 1.8 ∧ |pose.bodySway| ≤ 1 := by
  simp only [computePose] at hres
  rcases hd : driverSignal P emotion mode analyserData timeline visemeDuration
      ((timestamp - startTime) / 1000) with _ | mw
  · rw [hd] at hres
    exact absurd hres (by simp)
  · rw [hd] at hres
    have hmw := driverSignal_mem P emotion mode analyserData timeline
      visemeDuration ((timestamp - startTime) / 1000) htl mw hd
    have hpose : pose = (assemblePose P emotion seed timestamp mw.1 mw.2 v).1 :=
      (congrArg Prod.fst (Option.some.inj hres)).symm
    rw [hpose]
    exact assemblePose_mem P emotion seed timestamp mw.1 mw.2 v hsin ha1 ha2
      hg1 hg2 hb1 hb2 hmw.1 hmw.2.1 hmw.2.2.1 hmw.2.2.2

/-- Witness for the amended C2 theorem: the bounded-sine primitives, the
unit-interval emotion fields and the in-band one-frame timeline hold at the
concrete instance, and the theorem applies to the tick it produces. -/
theorem updateLoop_channelBounds_witness :
    (∀ x, |P0.sin x| ≤ 1)
    ∧ (∀ fr ∈ [(⟨0, 1, 0.5⟩ : VisemeFrame)], 0.05 ≤ fr.mouth ∧ fr.mouth ≤ 1
        ∧ 0.05 ≤ fr.width ∧ fr.width ≤ 0.95)
    ∧ 0.05 ≤ (((computePose P0 e0 0 VoiceMode.text none [⟨0, 1, 0.5⟩] 100 0 0 7).getD
        (zeroPose, 0)).1).mouthOpen := by
  have hsin : ∀ x, |P0.sin x| ≤ 1 := by
    intro x
    simp [P0]
  have htl : ∀ fr ∈ [(⟨0, 1, 0.5⟩ : VisemeFrame)], 0.05 ≤ fr.mouth ∧ fr.mouth ≤ 1
      ∧ 0.05 ≤ fr.width ∧ fr.width ≤ 0.95 := by
    intro fr hfr
    simp only [List.mem_singleton] at hfr
    rw [hfr]
    norm_num
  have hdrv : computePose P0 e0 0 VoiceMode.text none [⟨0, 1, 0.5⟩] 100 0 0 7
      = some (assemblePose P0 e0 0 0 1 0.5 7) := by
    simp only [computePose, driverSignal, sampleViseme]
    norm_num
  refine ⟨hsin, htl, ?_⟩
  have := updateLoop_channelBounds P0 e0 0 VoiceMode.text none [⟨0, 1, 0.5⟩]
    100 0 0 7 hsin (by norm_num [e0]) (by norm_num [e0]) (by norm_num [e0])
    (by norm_num [e0]) (by norm_num [e0]) (by norm_num [e0]) htl
    (assemblePose P0 e0 0 0 1 0.5 7).1 (assemblePose P0 e0 0 0 1 0.5 7).2
    (by rw [hdrv])
  rw [hdrv]
  exact this.1

/-! Single-active-clock invariant. -/

theorem cleanupRAF_raf (s : EngineState) : (cleanupRAF s).raf = none := by
  cases h : s.raf <;> simp [cleanupRAF, h]

theorem cleanupRAF_nextRafId (s : EngineState) :
    (cleanupRAF s).nextRafId = s.nextRafId := by
  cases h : s.raf <;> simp [cleanupRAF, h]

theorem cleanupRAF_liveRafs (s : EngineState) (h : ClockInv s) :
    (cleanupRAF s).liveRafs = [] := by
  obtain ⟨h1, h2, _⟩ := h
  cases hr : s.raf with
  | none =>
    have hnil : s.liveRafs = [] := by
      cases hl : s.liveRafs with
      | nil => rfl
      | cons a t =>
        have := h2 a (by rw [hl]; simp)
        rw [hr] at this
        cases this
    simp [cleanupRAF, hr, hnil]
  | some id =>
    cases hl : s.liveRafs with
    | nil => simp [cleanupRAF, hr, hl]
    | cons a t =>
      have ha := h2 a (by rw [hl]; simp)
      rw [hr] at ha
      have hia : id = a := by injection ha
      have ht : t = [] := by
        rw [hl] at h1
        simp only [List.length_cons] at h1
        exact List.eq_nil_of_length_eq_zero (by omega)
      simp [cleanupRAF, hr, hl, ht, hia, List.erase_cons]

theorem clockInv_of_nil (s : EngineState) (h : s.liveRafs = []) : ClockInv s := by
  refine ⟨by simp [h], ?_, ?_⟩ <;> intro id hid <;> rw [h] at hid <;> cases hid

theorem armRaf_clockInv (s : EngineState) (h : s.liveRafs = []) :
    ClockInv (armRaf s) := by
  refine ⟨by simp [armRaf, h], ?_, ?_⟩ <;> intro id hid <;>
    simp [armRaf, h] at hid <;> simp [armRaf, hid]

theorem armRaf_liveRafs (s : EngineState) :
    (armRaf s).liveRafs = s.nextRafId :: s.liveRafs :=
  rfl

theorem stopSpeechSynthesisE_rafFields (s : EngineState) :
    (stopSpeechSynthesisE s).liveRafs = s.liveRafs
    ∧ (stopSpeechSynthesisE s).raf = s.raf
    ∧ (stopSpeechSynthesisE s).nextRafId = s.nextRafId := by
  unfold stopSpeechSynthesisE
  by_cases h : s.ttsSupported <;> cases hu : s.utterance <;> simp [h, hu]

/-- The audio branch never arms a clock on a precondition-failure path and
otherwise arms exactly one fresh registration: starting from an empty live
registry it ends with the empty registry or with the singleton fresh id,
and in either case the single-clock invariant holds. -/
theorem startAudioBranch_spec (s : EngineState) (h : s.liveRafs = []) :
    ((startAudioBranch s).liveRafs = []
      ∨ (startAudioBranch s).liveRafs = [s.nextRafId])
    ∧ ClockInv (startAudioBranch s) := by
  unfold startAudioBranch
  cases h1 : s.analyserAttached <;> cases h3 : s.audioElement <;>
    cases h2 : s.hasAudioLoaded <;>
    simp only [h1, h2, h3, Bool.or_self, Bool.or_true, Bool.or_false,
      Bool.true_or, Bool.false_or, Bool.not_true, Bool.not_false,
      Bool.false_and, Bool.true_and, Bool.and_self, Bool.true_eq_false,
      Bool.false_eq_true, if_true, if_false, Bool.or_eq_true,
      Bool.not_eq_true'] <;>
    first
      | exact ⟨Or.inl h, clockInv_of_nil _ h⟩
      | exact ⟨Or.inr (by simp [armRaf, h]), armRaf_clockInv _ (by simpa using h)⟩

/-- The text branch: no clock armed when speech synthesis is unsupported,
otherwise exactly one fresh registration armed; the single-clock invariant
holds either way. -/
theorem startTextBranch_spec (P : MathPrims) (ctx : EngineContext)
    (s : EngineState) (h : s.liveRafs = []) :
    ((startTextBranch P ctx s).liveRafs = []
      ∨ (startTextBranch P ctx s).liveRafs = [s.nextRafId])
    ∧ ClockInv (startTextBranch P ctx s) := by
  unfold startTextBranch
  have hf := stopSpeechSynthesisE_rafFields s
  cases h1 : s.ttsSupported
  · simp only [h1, Bool.not_false, if_true]
    exact ⟨Or.inl h, clockInv_of_nil _ h⟩
  · simp only [h1, Bool.not_true, Bool.false_eq_true, if_false]
    have hlive : ∀ t : EngineState,
        t.liveRafs = (stopSpeechSynthesisE s).liveRafs →
        t.nextRafId = (stopSpeechSynthesisE s).nextRafId →
        (armRaf t).liveRafs = [s.nextRafId] ∧ ClockInv (armRaf t) := by
      intro t htl htn
      have htl2 : t.liveRafs = [] := htl.trans (hf.1.trans h)
      constructor
      · rw [armRaf_liveRafs, htl2, htn, hf.2.2]
      · exact armRaf_clockInv _ htl2
    obtain ⟨ha, hb⟩ := hlive _ rfl rfl
    exact ⟨Or.inr ha, hb⟩

theorem startCore_spec (P : MathPrims) (ctx : EngineContext) (now : ℚ)
    (sourceMode : VoiceMode) (s2 : EngineState) (h : ClockInv s2) :
    ((startCore P ctx now sourceMode s2).liveRafs = []
      ∨ (startCore P ctx now sourceMode s2).liveRafs = [s2.nextRafId])
    ∧ ClockInv (startCore P ctx now sourceMode s2) := by
  unfold startCore
  have hl : ({ cleanupRAF s2 with startTime := now } : EngineState).liveRafs = [] := by
    show (cleanupRAF s2).liveRafs = []
    exact cleanupRAF_liveRafs s2 h
  have hn : ({ cleanupRAF s2 with startTime := now } : EngineState).nextRafId
      = s2.nextRafId := by
    show (cleanupRAF s2).nextRafId = s2.nextRafId
    exact cleanupRAF_nextRafId s2
  by_cases hm : sourceMode = VoiceMode.audio
  · rw [if_pos hm, ← hn]
    exact startAudioBranch_spec _ hl
  · rw [if_neg hm, ← hn]
    exact startTextBranch_spec P ctx _ hl

/-- Case analysis shared by both fromExport shapes of startPreview: the
invariant is preserved by the no-op branch and by the core, and whenever
the call passes the no-op check, every previously live registration is
gone from the resulting live registry. -/
theorem startPreview_core_case (P : MathPrims) (ctx : EngineContext)
    (opts : StartPreviewOptions) (now : ℚ) (s t : EngineState) (h : ClockInv s)
    (htl : t.liveRafs = s.liveRafs) (htr : t.raf = s.raf)
    (htn : t.nextRafId = s.nextRafId) (hts : t.isSpeaking = s.isSpeaking) :
    ClockInv (if (!opts.forceRestart && t.isSpeaking) = true then t
      else startCore P ctx now (opts.sourceMode.getD s.mode) t)
    ∧ ((opts.forceRestart || !s.isSpeaking) = true →
        ∀ id ∈ s.liveRafs,
          id ∉ (if (!opts.forceRestart && t.isSpeaking) = true then t
            else startCore P ctx now (opts.sourceMode.getD s.mode) t).liveRafs) := by
  have hinvt : ClockInv t := by
    obtain ⟨h1, h2, h3⟩ := h
    exact ⟨by rw [htl]; exact h1, by rw [htl, htr]; exact h2,
      by rw [htl, htn]; exact h3⟩
  by_cases hstop : (!opts.forceRestart && t.isSpeaking) = true
  · rw [if_pos hstop]
    refine ⟨hinvt, ?_⟩
    intro hgo id _
    rw [hts] at hstop
    rcases (Bool.and_eq_true _ _).mp hstop with ⟨hf, hsp⟩
    rw [Bool.not_eq_true'] at hf
    rw [hf, hsp] at hgo
    simp at hgo
  · rw [if_neg hstop]
    obtain ⟨hlor, hci⟩ := startCore_spec P ctx now (opts.sourceMode.getD s.mode) t hinvt
    refine ⟨hci, ?_⟩
    intro _ id hid
    rcases hlor with hl | hl
    · rw [hl]
      simp
    · rw [hl, htn]
      have := h.2.2 id hid
      simp
      omega

/-- C3: at most one animation clock is active per engine instance.  Under
the sequential (run-to-completion) model of an invocation, startPreview
preserves the single-active-clock invariant (at most one live
animation-frame registration, pointed at by the ref), and on every path
that passes the no-op check — in particular every path that arms a new
callback — the previously outstanding registration has been cancelled
first, so it is no longer live in the resulting state: no reachable state
carries two concurrent self-rescheduling clocks. -/
theorem startPreview_singleClock (P : MathPrims) (ctx : EngineContext)
    (opts : StartPreviewOptions) (now : ℚ) (s : EngineState) (h : ClockInv s) :
    ClockInv (startPreview P ctx opts now s)
    ∧ ((opts.forceRestart || !s.isSpeaking) = true →
        ∀ id ∈ s.liveRafs, id ∉ (startPreview P ctx opts now s).liveRafs) := by
  unfold startPreview
  cases hx : opts.fromExport with
  | false =>
    simp only [hx, Bool.false_eq_true, if_false]
    exact startPreview_core_case P ctx opts now s
      (resetLipStateE { s with mode := opts.sourceMode.getD s.mode })
      h rfl rfl rfl rfl
  | true =>
    simp only [hx, if_true]
    exact startPreview_core_case P ctx opts now s
      { s with mode := opts.sourceMode.getD s.mode }
      h rfl rfl rfl rfl

/-- Witness for the C3 theorem: a concrete armed state satisfying the
invariant, a forced restart in audio mode, and the invariant plus the
supersession conclusion at that instance. -/
theorem startPreview_singleClock_witness :
    (let s0 : EngineState :=
      { lipState := zeroPose, isSpeaking := true, hasAudioLoaded := true
        ttsSupported := true, mode := VoiceMode.audio, raf := some 0
        liveRafs := [0], nextRafId := 1, startTime := 0, visemeTimeline := []
        visemeDuration := 0, analyserAttached := true, audioElement := true
        audioPlaying := true, audioTime := 0, utterance := none
        speechActive := false, exportPending := false, stageCanvas := false }
    ClockInv s0
    ∧ ClockInv (startPreview P0 ⟨[], e0, 1⟩ ⟨true, none, false⟩ 7 s0)
    ∧ ∀ id ∈ s0.liveRafs,
        id ∉ (startPreview P0 ⟨[], e0, 1⟩ ⟨true, none, false⟩ 7 s0).liveRafs) := by
  intro s0
  have hinv : ClockInv s0 := by
    refine ⟨by decide, ?_, ?_⟩ <;> decide
  have := startPreview_singleClock P0 ⟨[], e0, 1⟩ ⟨true, none, false⟩ 7 s0 hinv
  exact ⟨hinv, this.1, this.2 (by decide)⟩

/-! Word extraction facts. -/

theorem dropWhile_head_not {α : Type} (p : α → Bool) (l : List α) (c : α)
    (rest : List α) (h : l.dropWhile p = c :: rest) : p c = false := by
  induction l with
  | nil => cases h
  | cons a t ih =>
    rw [List.dropWhile_cons] at h
    by_cases hp : p a = true
    · rw [if_pos hp] at h
      exact ih h
    · rw [if_neg hp] at h
      cases h
      cases hb : p c
      · rfl
      · exact absurd hb hp

theorem trimRight_cons {α : Type} (p : α → Bool) (c : α) (t : List α)
    (hc : p c = false) :
    ∃ y, ((c :: t).reverse.dropWhile p).reverse = c :: y := by
  rw [List.reverse_cons, List.dropWhile_append]
  by_cases he : (t.reverse.dropWhile p).isEmpty = true
  · rw [if_pos he]
    refine ⟨[], ?_⟩
    simp [List.dropWhile_cons, hc]
  · rw [if_neg he]
    refine ⟨(t.reverse.dropWhile p).reverse, ?_⟩
    rw [List.reverse_append]
    rfl

theorem trimJS_head (l : List Char) (h : trimJS l ≠ []) :
    ∃ c y, trimJS l = c :: y ∧ c.isWhitespace = false := by
  unfold trimJS at h ⊢
  cases hd : l.dropWhile Char.isWhitespace with
  | nil =>
    rw [hd] at h
    simp at h
  | cons c t =>
    have hc := dropWhile_head_not Char.isWhitespace l c t hd
    obtain ⟨y, hy⟩ := trimRight_cons Char.isWhitespace c t hc
    exact ⟨c, y, hy, hc⟩

theorem collapseWs_cons_not (c : Char) (t : List Char)
    (hc : c.isWhitespace = false) :
    collapseWs (c :: t) = c :: collapseWsAux false t := by
  simp [collapseWs, collapseWsAux, hc]

/-- A text whose head character is not whitespace always yields at least
one word. -/
theorem getWords_cons_ne_nil (c : Char) (t : List Char)
    (hc : c.isWhitespace = false) : getWords (c :: t) ≠ [] := by
  have hcs : (c == ' ') = false := by
    cases hw : c == ' '
    · rfl
    · exfalso
      have : c = ' ' := by
        have := (beq_iff_eq (a := c) (b := ' ')).mp hw
        exact this
      rw [this] at hc
      simp [Char.isWhitespace] at hc
  unfold getWords
  rw [collapseWs_cons_not c t hc]
  rw [List.dropWhile_cons, if_neg (by rw [hc]; simp)]
  obtain ⟨y, hy⟩ := trimRight_cons Char.isWhitespace c (collapseWsAux false t) hc
  rw [hy]
  show (List.splitOn ' ' (c :: y) |>.filter (· ≠ [])) ≠ []
  have hsplit : List.splitOn ' ' (c :: y)
      = List.modifyHead (List.cons c) (List.splitOnP (fun x => x == ' ') y) := by
    show List.splitOnP (fun x => x == ' ') (c :: y)
      = List.modifyHead (List.cons c) (List.splitOnP (fun x => x == ' ') y)
    rw [List.splitOnP_cons, if_neg (by rw [hcs]; simp)]
  rw [hsplit]
  cases hsp : List.splitOnP (fun x => x == ' ') y with
  | nil => exact absurd hsp (List.splitOnP_ne_nil _ _)
  | cons seg segs =>
    rw [List.modifyHead_cons]
    simp

/-- Through the public text-mode start path, the text actually used is
never empty of words. -/
theorem getWords_chosenText_ne (script : List Char) :
    getWords (chosenText script) ≠ [] := by
  unfold chosenText
  by_cases h : trimJS script = []
  · rw [if_pos h]
    decide
  · rw [if_neg h]
    obtain ⟨c, y, hy, hc⟩ := trimJS_head script h
    rw [hy]
    exact getWords_cons_ne_nil c y hc

/-! Controller path lemmas. -/

/-- cleanupRAF as a plain record update, convenient for projections. -/
theorem cleanupRAF_eq (s : EngineState) :
    cleanupRAF s
      = { s with
          liveRafs := (match s.raf with
            | some id => s.liveRafs.erase id
            | none => s.liveRafs)
          raf := none } := by
  cases s with
  | mk f1 f2 f3 f4 f5 f6 f7 f8 f9 f10 f11 f12 f13 f14 f15 f16 f17 f18 f19 =>
    cases f6 <;> simp [cleanupRAF]

theorem clockInv_transfer (s t : EngineState) (h : ClockInv s)
    (hl : t.liveRafs = s.liveRafs) (hr : t.raf = s.raf)
    (hn : t.nextRafId = s.nextRafId) : ClockInv t := by
  obtain ⟨h1, h2, h3⟩ := h
  exact ⟨by rw [hl]; exact h1, by rw [hl, hr]; exact h2, by rw [hl, hn]; exact h3⟩

theorem shutdownPlayback_spec (s : EngineState) (h : ClockInv s) :
    (shutdownPlayback s).isSpeaking = false
    ∧ (shutdownPlayback s).raf = none
    ∧ (shutdownPlayback s).liveRafs = []
    ∧ (shutdownPlayback s).exportPending = false := by
  unfold shutdownPlayback
  dsimp only
  have h1 := cleanupRAF_raf s
  have h2 := cleanupRAF_liveRafs s h
  have hf := stopSpeechSynthesisE_rafFields (cleanupRAF s)
  refine ⟨rfl, ?_, ?_, rfl⟩ <;>
    by_cases ha : (stopSpeechSynthesisE (cleanupRAF s)).audioElement = true <;>
    first
      | (rw [if_pos ha]; exact hf.2.1.trans h1)
      | (rw [if_neg ha]; exact hf.2.1.trans h1)
      | (rw [if_pos ha]; exact hf.1.trans h2)
      | (rw [if_neg ha]; exact hf.1.trans h2)

/-- Counterexample to C5 as stated: with a session playing and no
forceRestart, startPreview with a requested audio source mode still
overwrites the mode ref and resets the transient pose fields before its
early return, so the engine state is not left unchanged. -/
theorem startPreview_alreadySpeaking_cex :
    (startPreview P0 ctx0 ⟨false, some VoiceMode.audio, false⟩ 5 s5cex).lipState.mouthOpen
        ≠ s5cex.lipState.mouthOpen
    ∧ (startPreview P0 ctx0 ⟨false, some VoiceMode.audio, false⟩ 5 s5cex).mode
        ≠ s5cex.mode := by
  constructor
  · show (0.12 : ℚ) ≠ (1 : ℚ)
    norm_num
  · show VoiceMode.audio ≠ VoiceMode.text
    simp

/-- C5 (amended): if a session is already playing and forceRestart is not
set, startPreview returns at the early no-op check, leaving the start
timestamp, timeline, duration, clock ref, live clock registrations,
utterance and speaking flag unchanged; but before that check it has
already recorded the requested source mode in the mode ref and (unless the
call comes from export) reset the transient pose fields. -/
theorem startPreview_alreadySpeaking (P : MathPrims) (ctx : EngineContext)
    (opts : StartPreviewOptions) (now : ℚ) (s : EngineState)
    (h1 : s.isSpeaking = true) (h2 : opts.forceRestart = false) :
    startPreview P ctx opts now s
      = (if opts.fromExport then { s with mode := opts.sourceMode.getD s.mode }
         else resetLipStateE { s with mode := opts.sourceMode.getD s.mode })
    ∧ (startPreview P ctx opts now s).startTime = s.startTime
    ∧ (startPreview P ctx opts now s).visemeTimeline = s.visemeTimeline
    ∧ (startPreview P ctx opts now s).visemeDuration = s.visemeDuration
    ∧ (startPreview P ctx opts now s).raf = s.raf
    ∧ (startPreview P ctx opts now s).liveRafs = s.liveRafs
    ∧ (startPreview P ctx opts now s).utterance = s.utterance
    ∧ (startPreview P ctx opts now s).isSpeaking = true := by
  have hmain : startPreview P ctx opts now s
      = (if opts.fromExport then { s with mode := opts.sourceMode.getD s.mode }
         else resetLipStateE { s with mode := opts.sourceMode.getD s.mode }) := by
    unfold startPreview
    dsimp only
    cases hx : opts.fromExport <;>
      simp only [hx, Bool.false_eq_true, if_false, if_true] <;>
      rw [if_pos (by rw [h2]; show (!false && s.isSpeaking) = true; rw [h1]; rfl)]
  refine ⟨hmain, ?_, ?_, ?_, ?_, ?_, ?_, ?_⟩ <;>
    rw [hmain] <;> cases hx : opts.fromExport <;>
    simp [hx, resetLipStateE, h1]

/-- Witness for the amended C5 theorem at the concrete fixture. -/
theorem startPreview_alreadySpeaking_witness :
    s5cex.isSpeaking = true
    ∧ (false : Bool) = false
    ∧ (startPreview P0 ctx0 ⟨false, some VoiceMode.audio, false⟩ 5 s5cex).startTime
        = s5cex.startTime
    ∧ (startPreview P0 ctx0 ⟨false, some VoiceMode.audio, false⟩ 5 s5cex).raf
        = s5cex.raf := by
  have h := startPreview_alreadySpeaking P0 ctx0 ⟨false, some VoiceMode.audio, false⟩
    5 s5cex rfl rfl
  exact ⟨rfl, rfl, h.2.1, h.2.2.2.2.1⟩

/-- Counterexample to C6 as stated: with no audio loaded, the audio-mode
startPreview does refuse silently (no clock armed, no playback), but it
does not leave the engine unchanged: the start timestamp has been
overwritten and the transient pose fields reset before the precondition
check. -/
theorem startPreview_audioPrecondFail_cex :
    (startPreview P0 ctx0 ⟨false, none, false⟩ 5 s6cex).startTime ≠ s6cex.startTime
    ∧ (startPreview P0 ctx0 ⟨false, none, false⟩ 5 s6cex).lipState.mouthOpen
        ≠ s6cex.lipState.mouthOpen
    ∧ (startPreview P0 ctx0 ⟨false, none, false⟩ 5 s6cex).raf = none
    ∧ (startPreview P0 ctx0 ⟨false, none, false⟩ 5 s6cex).audioPlaying = false := by
  refine ⟨?_, ?_, rfl, rfl⟩
  · show (5 : ℚ) ≠ (0 : ℚ)
    norm_num
  · show (0.12 : ℚ) ≠ (1 : ℚ)
    norm_num

/-- C6 (amended): when startPreview runs in audio mode past the no-op
check and the precondition fails (no analyser attachable and none
attached, or no audio loaded), it refuses silently: no clock is armed (the
clock ref is empty), no audio playback begins, and the speaking flag,
timeline and utterance are unchanged; but the refusal is not
state-neutral: the mode ref is written, the transient pose fields reset
unless the call comes from export, any outstanding clock is cancelled, the
start timestamp is overwritten with the current time, and the analyser is
created when attachable. -/
theorem startPreview_audioPrecondFail (P : MathPrims) (ctx : EngineContext)
    (opts : StartPreviewOptions) (now : ℚ) (s : EngineState)
    (hmode : opts.sourceMode.getD s.mode = VoiceMode.audio)
    (hgo : (opts.forceRestart || !s.isSpeaking) = true)
    (hfail : ((s.analyserAttached || s.audioElement) && s.hasAudioLoaded) = false) :
    startPreview P ctx opts now s = audioPrecondFailState opts now s
    ∧ (startPreview P ctx opts now s).raf = none
    ∧ (startPreview P ctx opts now s).isSpeaking = s.isSpeaking
    ∧ (startPreview P ctx opts now s).audioPlaying = s.audioPlaying
    ∧ (startPreview P ctx opts now s).visemeTimeline = s.visemeTimeline
    ∧ (startPreview P ctx opts now s).utterance = s.utterance
    ∧ (startPreview P ctx opts now s).startTime = now := by
  have hstop : (!opts.forceRestart && s.isSpeaking) = false := by
    cases hf : opts.forceRestart <;> cases hs : s.isSpeaking <;> simp_all
  have hmain : startPreview P ctx opts now s = audioPrecondFailState opts now s := by
    unfold startPreview startCore startAudioBranch audioPrecondFailState
    dsimp only
    rw [hmode]
    cases hx : opts.fromExport <;>
      cases ha : s.analyserAttached <;>
      cases he : s.audioElement <;>
      cases hl2 : s.hasAudioLoaded <;>
      simp_all [resetLipStateE, cleanupRAF_eq]
  refine ⟨hmain, ?_, ?_, ?_, ?_, ?_, ?_⟩ <;>
    rw [hmain] <;> unfold audioPrecondFailState <;> dsimp only <;>
    cases hx : opts.fromExport <;>
    by_cases haoe : (s.analyserAttached || s.audioElement) = true <;>
    simp [hx, haoe, resetLipStateE, cleanupRAF_eq]

/-- Witness for the amended C6 theorem at the concrete fixture. -/
theorem startPreview_audioPrecondFail_witness :
    ((⟨false, none, false⟩ : StartPreviewOptions).sourceMode.getD s6cex.mode
        = VoiceMode.audio)
    ∧ ((false : Bool) || !s6cex.isSpeaking) = true
    ∧ ((s6cex.analyserAttached || s6cex.audioElement) && s6cex.hasAudioLoaded) = false
    ∧ (startPreview P0 ctx0 ⟨false, none, false⟩ 5 s6cex).isSpeaking
        = s6cex.isSpeaking
    ∧ (startPreview P0 ctx0 ⟨false, none, false⟩ 5 s6cex).audioPlaying
        = s6cex.audioPlaying := by
  have h := startPreview_audioPrecondFail P0 ctx0 ⟨false, none, false⟩ 5 s6cex
    rfl rfl rfl
  exact ⟨rfl, rfl, rfl, h.2.2.1, h.2.2.2.1⟩

/-- C10: through the public start operation in text mode (speech supported,
past the no-op check), the engine builds both the viseme timeline and the
speech utterance from the chosen text — the trimmed script, or the fixed
phrase when the script trims to nothing — and the chosen text always has
at least one word, so the synthesizer's empty-text fallback branch is
unreachable from this path. -/
theorem startPreview_textSubstitution (P : MathPrims) (ctx : EngineContext)
    (opts : StartPreviewOptions) (now : ℚ) (s : EngineState)
    (hmode : opts.sourceMode.getD s.mode = VoiceMode.text)
    (hgo : (opts.forceRestart || !s.isSpeaking) = true)
    (htts : s.ttsSupported = true) :
    (startPreview P ctx opts now s).visemeTimeline
        = (buildVisemeTimeline P (chosenText ctx.script) ctx.emotion ctx.seed).1
    ∧ (startPreview P ctx opts now s).visemeDuration
        = (buildVisemeTimeline P (chosenText ctx.script) ctx.emotion ctx.seed).2
    ∧ (startPreview P ctx opts now s).utterance.map UtteranceConfig.text
        = some (chosenText ctx.script)
    ∧ getWords (chosenText ctx.script) ≠ []
    ∧ (trimJS ctx.script = [] → chosenText ctx.script = fallbackPhrase) := by
  have hstop : (!opts.forceRestart && s.isSpeaking) = false := by
    cases hf : opts.forceRestart <;> cases hs : s.isSpeaking <;> simp_all
  have hta : (VoiceMode.text = VoiceMode.audio) ↔ False := by simp
  refine ⟨?_, ?_, ?_, getWords_chosenText_ne ctx.script,
    fun h => by unfold chosenText; rw [if_pos h]⟩ <;>
  · unfold startPreview startCore startTextBranch
    dsimp only
    rw [hmode]
    cases hx : opts.fromExport <;>
      simp only [hx, Bool.false_eq_true, if_false, if_true, resetLipStateE,
        cleanupRAF_eq, hstop, htts, Bool.not_true, Bool.not_false, hta,
        Option.map_some] <;>
      rfl

/-- Witness for the C10 theorem: a whitespace-only script is substituted
by the fixed phrase, the chosen text has words, and the utterance is built
from it. -/
theorem startPreview_textSubstitution_witness :
    ((⟨false, none, false⟩ : StartPreviewOptions).sourceMode.getD s10.mode
        = VoiceMode.text)
    ∧ s10.ttsSupported = true
    ∧ chosenText ctx10.script = fallbackPhrase
    ∧ getWords (chosenText ctx10.script) ≠ []
    ∧ (startPreview P0 ctx10 ⟨false, none, false⟩ 5 s10).utterance.map
        UtteranceConfig.text = some (chosenText ctx10.script) := by
  have h := startPreview_textSubstitution P0 ctx10 ⟨false, none, false⟩ 5 s10
    rfl rfl rfl
  refine ⟨rfl, rfl, h.2.2.2.2 (by decide), h.2.2.2.1, h.2.2.1⟩

/-- C4: with a stage canvas registered, exportVideo always stops the
driving session after the fixed capture window (the returned state is no
longer speaking, its clock ref is empty and no clock registration is
live) and returns a non-null clip; and whenever the transcoding
collaborator fails, the returned clip is exactly the raw captured webm
blob rather than null or an exception. -/
theorem exportVideo_spec (P : MathPrims) (ctx : EngineContext)
    (transcode : Blob → Except Unit Blob) (chunks : List ℕ) (now : ℚ)
    (s : EngineState) (hc : s.stageCanvas = true) (hinv : ClockInv s) :
    (exportVideo P ctx transcode chunks now s).1.isSome = true
    ∧ (exportVideo P ctx transcode chunks now s).2.isSpeaking = false
    ∧ (exportVideo P ctx transcode chunks now s).2.raf = none
    ∧ (exportVideo P ctx transcode chunks now s).2.liveRafs = []
    ∧ ∀ e : Unit, transcode ⟨ClipKind.webm, chunks⟩ = Except.error e →
        (exportVideo P ctx transcode chunks now s).1
          = some ⟨ClipKind.webm, chunks⟩ := by
  have hinv1 : ClockInv ({ s with exportPending := true }) :=
    clockInv_transfer s _ hinv rfl rfl rfl
  have hsp : ClockInv (startPreview P ctx ⟨true, none, true⟩ now
      { s with exportPending := true }) := by
    have h := startPreview_core_case P ctx ⟨true, none, true⟩ now
      ({ s with exportPending := true })
      ({ ({ s with exportPending := true } : EngineState) with
          mode := ({ s with exportPending := true } : EngineState).mode })
      hinv1 rfl rfl rfl rfl
    exact h.1
  have hsd := shutdownPlayback_spec _ hsp
  unfold exportVideo
  dsimp only
  rw [if_neg (by rw [hc]; simp)]
  refine ⟨rfl, hsd.1, hsd.2.1, hsd.2.2.1, ?_⟩
  intro e he
  simp only [he]

/-- Witness for the C4 theorem: a registered canvas, a transcoder that
always fails, and the raw webm clip returned with the session stopped. -/
theorem exportVideo_spec_witness :
    s4w.stageCanvas = true
    ∧ ClockInv s4w
    ∧ (exportVideo P0 ctx0 (fun _ => Except.error ()) [1, 2] 9 s4w).1
        = some ⟨ClipKind.webm, [1, 2]⟩
    ∧ (exportVideo P0 ctx0 (fun _ => Except.error ()) [1, 2] 9 s4w).2.isSpeaking
        = false := by
  have hinv : ClockInv s4w := by
    refine ⟨by decide, ?_, ?_⟩ <;> decide
  have h := exportVideo_spec P0 ctx0 (fun _ => Except.error ()) [1, 2] 9 s4w rfl hinv
  exact ⟨rfl, hinv, h.2.2.2.2 () rfl, h.2.1⟩

end LipSync
